import Mathlib

/-!
Verification development for the TOON codec (toon.h / toon.cpp).

The C++ library stores a tagged value (null, number, bool, string, array,
object) behind a shared pointer; `dump` serializes a value and `parse`
reads the textual notation back.  Bytes of the C++ `std::string` buffers
are modelled as Lean `Char` values (all inputs of interest are in the
byte range), and texts as `List Char`.  The C++ `std::map` object storage
is modelled as an association list kept sorted by key through the insert
operation, matching map iteration order.  The numeric payload of a parsed
double is modelled as an exact rational: binary64 rounding and the
seventeen-significant-digit output format are outside the embedding, and
no theorem below depends on numeric text or rounding.
-/

abbrev Str := List Char

def nullLit : Str := "null".toList
def trueLit : Str := "true".toList
def falseLit : Str := "false".toList

/-- The reserved bytes of the notation, `",:\n[]{}#"` in the source. -/
def specialChars : Str := [',', ':', '\n', '[', ']', '{', '}', '#']

/-- Whitespace accepted by `ToonParser::consume_whitespace`. -/
def isWSChar (c : Char) : Bool := c = ' ' || c = '\r' || c = '\t'

/-- C `isspace` in the C locale, as used by `strtod`. -/
def cIsSpace (c : Char) : Bool :=
  c = ' ' || c = '\t' || c = '\n' || c = '\x0b' || c = '\x0c' || c = '\r'

def isHexChar (c : Char) : Bool :=
  c.isDigit || ('a' ≤ c && c ≤ 'f') || ('A' ≤ c && c ≤ 'F')

/-- The value model of `toon.h`: the six variants of `Toon::Type`.
    `ToonInt` is omitted: the parser only ever builds doubles, and no
    claim below involves integer-constructed values. -/
inductive Toon where
  | null : Toon
  | num : ℚ → Toon
  | bool : Bool → Toon
  | str : Str → Toon
  | arr : List Toon → Toon
  | obj : List (Str × Toon) → Toon

instance : Inhabited Toon := ⟨Toon.null⟩

abbrev ObjMap := List (Str × Toon)

/-- `Toon::is_object`. -/
def isObjectB : Toon → Bool
  | Toon.obj _ => true
  | _ => false

/-- `Toon::is_array`. -/
def isArrayB : Toon → Bool
  | Toon.arr _ => true
  | _ => false

/-- `Toon::object_items`: the stored map for objects, the static empty
    map for every other variant. -/
def objItems : Toon → ObjMap
  | Toon.obj kvs => kvs
  | _ => []

/-- `std::string` operator `<` (lexicographic by byte). -/
def strLt : Str → Str → Bool
  | [], [] => false
  | [], _ :: _ => true
  | _ :: _, [] => false
  | a :: as, b :: bs => if a < b then true else if b < a then false else strLt as bs

/-- `std::map::operator[]` followed by assignment: ordered insert with
    last-write-wins on an existing key. -/
def objInsert (k : Str) (v : Toon) : ObjMap → ObjMap
  | [] => [(k, v)]
  | (k1, v1) :: rest =>
    if strLt k k1 then (k, v) :: (k1, v1) :: rest
    else if strLt k1 k then (k1, v1) :: objInsert k v rest
    else (k1, v) :: rest

/-- `std::map::find`. -/
def lookupKey : ObjMap → Str → Option Toon
  | [], _ => none
  | (k1, v1) :: rest, k => if k1 = k then some v1 else lookupKey rest k

mutual

/-- `Toon::operator==` (`toon.cpp`): types must agree, then the stored
    payloads are compared; vectors elementwise, maps as pair sequences. -/
def toonEq : Toon → Toon → Bool
  | Toon.null, Toon.null => true
  | Toon.num a, Toon.num b => a == b
  | Toon.bool a, Toon.bool b => a == b
  | Toon.str a, Toon.str b => a == b
  | Toon.arr a, Toon.arr b => toonEqL a b
  | Toon.obj a, Toon.obj b => toonEqO a b
  | _, _ => false

def toonEqL : List Toon → List Toon → Bool
  | [], [] => true
  | x :: xs, y :: ys => toonEq x y && toonEqL xs ys
  | _, _ => false

def toonEqO : ObjMap → ObjMap → Bool
  | [], [] => true
  | (k1, v1) :: xs, (k2, v2) :: ys => k1 == k2 && toonEq v1 v2 && toonEqO xs ys
  | _, _ => false

end

/-- `ToonArray::operator[]` together with the `ToonValue` fallback:
    in-range array indices return the element, everything else the
    static null. -/
def toonIndex : Toon → Nat → Toon
  | Toon.arr xs, i => if xs.length ≤ i then Toon.null else xs.getD i Toon.null
  | _, _ => Toon.null

/-- `ToonObject::operator[]` together with the `ToonValue` fallback. -/
def toonKeyLookup : Toon → Str → Toon
  | Toon.obj kvs, k =>
    match lookupKey kvs k with
    | none => Toon.null
    | some v => v
  | _, _ => Toon.null

/- ### Model of C `strtod` consumption -/

def countWhile (p : Char → Bool) : Str → Nat
  | [] => 0
  | c :: cs => if p c then countWhile p cs + 1 else 0

/-- Case-insensitive word match at the front of `s` (`w` lowercase). -/
def matchCI (w : Str) (s : Str) : Bool := (s.take w.length).map Char.toLower == w

/-- Exponent-part length for `strtod` (`e`/`E` or `p`/`P` family); the
    whole exponent is rolled back when no digit follows. -/
def expLen (echars : Str) (s : Str) : Nat :=
  match s with
  | [] => 0
  | c :: rest =>
    if echars.contains c then
      let sg := match rest with
        | [] => 0
        | d :: _ => if d = '+' || d = '-' then 1 else 0
      let ds := countWhile Char.isDigit (rest.drop sg)
      if ds = 0 then 0 else 1 + sg + ds
    else 0

/-- Optional parenthesized character sequence after `nan`. -/
def nanSeqLen (s : Str) : Nat :=
  match s with
  | '(' :: rest =>
    let n := countWhile (fun c => c.isAlphanum || c = '_') rest
    (match rest.drop n with
     | ')' :: _ => n + 2
     | _ => 0)
  | _ => 0

/-- Digit-sequence-with-optional-point: (total digit count, consumed). -/
def mantissaLen (dig : Char → Bool) (s : Str) : Nat × Nat :=
  let a := countWhile dig s
  match s.drop a with
  | '.' :: rest =>
    let b := countWhile dig rest
    (a + b, a + 1 + b)
  | _ => (a, a)

/-- Number of characters consumed by C `strtod` from the front of `s`
    (zero when no conversion is performed). -/
def strtodConsumed (s : Str) : Nat :=
  let w := countWhile cIsSpace s
  let t := s.drop w
  let sg := match t with
    | [] => 0
    | c :: _ => if c = '+' || c = '-' then 1 else 0
  let u := t.drop sg
  if matchCI ("infinity".toList) u then w + sg + 8
  else if matchCI ("inf".toList) u then w + sg + 3
  else if matchCI ("nan".toList) u then w + sg + 3 + nanSeqLen (u.drop 3)
  else
    let isHex := match u with
      | '0' :: x :: _ => x = 'x' || x = 'X'
      | _ => false
    if isHex then
      let rest := u.drop 2
      let (nd, m) := mantissaLen isHexChar rest
      if nd = 0 then w + sg + 1
      else w + sg + 2 + m + expLen ['p', 'P'] (rest.drop m)
    else
      let (nd, m) := mantissaLen Char.isDigit u
      if nd = 0 then 0
      else w + sg + m + expLen ['e', 'E'] (u.drop m)

/-- `strtod` consumes the whole string (`*end == 0` in the source). -/
def strtodFull (s : Str) : Bool := strtodConsumed s = s.length

def digitsVal (ds : Str) : Nat := ds.foldl (fun a c => a * 10 + (c.toNat - 48)) 0

/-- The value `strtod` returns on the decimal inputs produced by
    `parse_number` (whose greedy run admits only digits, `.`, `-`, `e`,
    `E`, so the hexadecimal and inf/nan branches are unreachable there).
    The exact decimal rational stands in for the rounded binary64. -/
def strtodValD (s0 : Str) : ℚ :=
  let t := s0.drop (countWhile cIsSpace s0)
  let sgn : ℚ := match t with
    | '-' :: _ => -1
    | _ => 1
  let u := match t with
    | '-' :: rest => rest
    | '+' :: rest => rest
    | _ => t
  let a := countWhile Char.isDigit u
  let intPart := digitsVal (u.take a)
  let (nd, fracPart, fracLen, m) :=
    match u.drop a with
    | '.' :: rest =>
      let b := countWhile Char.isDigit rest
      (a + b, digitsVal (rest.take b), b, a + 1 + b)
    | _ => (a, 0, 0, a)
  if nd = 0 then 0
  else
    let base : ℚ := sgn * ((intPart : ℚ) + (fracPart : ℚ) / ((10 : ℚ) ^ fracLen))
    let e : Int :=
      match u.drop m with
      | c :: r1 =>
        if c = 'e' || c = 'E' then
          let (esgn, r2) : Int × Str :=
            match r1 with
            | '+' :: rr => (1, rr)
            | '-' :: rr => (-1, rr)
            | _ => (1, r1)
          let ds := countWhile Char.isDigit r2
          if ds = 0 then 0 else esgn * (digitsVal (r2.take ds) : Int)
        else 0
      | [] => 0
    base * (10 : ℚ) ^ e

/- ### Encoder -/

/-- `needs_quoting` (`toon.cpp`): empty, a keyword, a fully numeric
    string starting with a digit or minus, or containing a reserved
    byte. -/
def needs_quoting (v : Str) : Bool :=
  if v.isEmpty then true
  else if v = nullLit || v = trueLit || v = falseLit then true
  else if (Char.isDigit (v.headD ' ') || v.headD ' ' = '-') && strtodFull v then true
  else v.any (fun c => specialChars.contains c)

def hexDigitLower (n : Nat) : Char :=
  if n < 10 then Char.ofNat (48 + n) else Char.ofNat (87 + n)

/-- Escape of one byte inside a quoted dump (`dump(const string&,...)`). -/
def escByte (c : Char) : Str :=
  if c = '\\' then ['\\', '\\']
  else if c = '"' then ['\\', '"']
  else if c = '\x08' then ['\\', 'b']
  else if c = '\x0c' then ['\\', 'f']
  else if c = '\n' then ['\\', 'n']
  else if c = '\r' then ['\\', 'r']
  else if c = '\t' then ['\\', 't']
  else if c.toNat ≤ 0x1f then
    ['\\', 'u', '0', '0', hexDigitLower (c.toNat / 16), hexDigitLower (c.toNat % 16)]
  else [c]

/-- `dump(const string&, string&, int)`: verbatim when no quoting is
    needed, otherwise quoted with the escapes above. -/
def dumpStr (v : Str) : Str :=
  if needs_quoting v = false then v
  else '"' :: (v.flatMap escByte) ++ ['"']

def natDigits (n : Nat) : Str := Nat.toDigits 10 n

def fracDigits : Nat → Nat → Nat → Str
  | 0, _, _ => []
  | k + 1, r, d => if r = 0 then [] else natDigits (r * 10 / d) ++ fracDigits k (r * 10 % d) d

/-- Rendering of a number.  The C++ encoder prints finite doubles with
    `%.17g`; binary64 formatting cannot be reproduced over the exact
    rational model, so the rational is rendered in plain decimal form
    here.  No theorem below depends on this text. -/
def dumpNum (q : ℚ) : Str :=
  (if q < 0 then ['-'] else []) ++ natDigits (q.num.natAbs / q.den) ++
    (if q.den = 1 then [] else '.' :: fracDigits 17 (q.num.natAbs % q.den) q.den)

/-- `indent(out, level)`: two spaces per level. -/
def indentOf (level : Nat) : Str := List.replicate (2 * level) ' '

def joinSep (sep : Str) (parts : List Str) : Str := List.intercalate sep parts

/-- The key list of the first element, in stored (map) order:
    the `keys` vector of `dump(const Toon::array&,...)`. -/
def keysOf (v : Toon) : List Str := (objItems v).map Prod.fst

/-- The branch condition of `dump(const Toon::array&,...)`: the first
    element is an object, every later element is an object with the same
    number of keys, each key of the first element occurs in it, and
    (final `!keys.empty()` test) the first element has at least one key. -/
def tabularOk (vs : List Toon) : Bool :=
  match vs with
  | [] => false
  | v0 :: rest =>
    if isObjectB v0 then
      (rest.all fun v =>
        isObjectB v && (objItems v).length = (keysOf v0).length &&
          ((keysOf v0).all fun k => (lookupKey (objItems v) k).isSome)) &&
        !(keysOf v0).isEmpty
    else false

mutual

/-- Structural size of a value, used as dump fuel. -/
def toonSize : Toon → Nat
  | Toon.null => 1
  | Toon.num _ => 1
  | Toon.bool _ => 1
  | Toon.str _ => 1
  | Toon.arr vs => 1 + toonSizeL vs
  | Toon.obj kvs => 1 + toonSizeO kvs

def toonSizeL : List Toon → Nat
  | [] => 1
  | v :: rest => 1 + toonSize v + toonSizeL rest

def toonSizeO : ObjMap → Nat
  | [] => 1
  | (_, v) :: rest => 1 + toonSize v + toonSizeO rest

end

/- The dump of arrays, objects and nested values is mutually recursive
in the source; it is modelled structurally on a fuel argument, with the
wrappers below supplying twice the structural size of the dumped value
(plus two) as fuel.  Each recursive step consumes one fuel unit and
either enters a strictly smaller value or advances in a list whose
length is below the structural size, so the zero-fuel fallback is never
reached from the wrappers. -/

mutual

/-- `Toon::dump(string&, int)`: dispatch on the stored variant.  Output
    is modelled as the appended text. -/
def dumpToonF : Nat → Toon → Nat → Str
  | 0, _, _ => []
  | f + 1, t, level =>
    match t with
    | Toon.null => nullLit
    | Toon.num q => dumpNum q
    | Toon.bool b => if b then trueLit else falseLit
    | Toon.str v => dumpStr v
    | Toon.arr vs => dumpArrF f vs level
    | Toon.obj kvs => dumpObjF f kvs level
termination_by structural fuel _ _ => fuel

/-- `dump(const Toon::array&, string&, int)`: `[0]:` when empty, the
    tabular header-and-rows form when `tabularOk`, otherwise the verbose
    `[N]: ` form with elements dumped inline at the same level. -/
def dumpArrF : Nat → List Toon → Nat → Str
  | 0, _, _ => []
  | f + 1, vs, level =>
    if vs.isEmpty then "[0]:".toList
    else if tabularOk vs then
      let keys := keysOf (vs.headD Toon.null)
      ('[' :: '{' :: joinSep (", ".toList) keys) ++ ('}' :: ']' :: ':' :: '\n' :: []) ++
        joinSep ['\n'] (dumpRowsF f keys vs level)
    else
      ('[' :: natDigits vs.length) ++ (']' :: ':' :: ' ' :: []) ++
        joinSep (", ".toList) (dumpElemsF f vs level)
termination_by structural fuel _ _ => fuel

/-- The tabular rows: one indented line of cells per element. -/
def dumpRowsF : Nat → List Str → List Toon → Nat → List Str
  | 0, _, _, _ => []
  | f + 1, keys, vs, level =>
    match vs with
    | [] => []
    | v :: rest =>
      (indentOf (level + 1) ++ joinSep (", ".toList) (dumpCellsF f keys (objItems v) level)) ::
        dumpRowsF f keys rest level
termination_by structural fuel _ _ _ => fuel

/-- The cells of one row, in header-key order. -/
def dumpCellsF : Nat → List Str → ObjMap → Nat → List Str
  | 0, _, _, _ => []
  | f + 1, ks0, kvs, level =>
    match ks0 with
    | [] => []
    | k :: ks => dumpCellF f kvs k level :: dumpCellsF f ks kvs level
termination_by structural fuel _ _ _ => fuel

/-- A tabular cell: `obj.at(keys[j])` dumped at the row level plus one.
    The missing-key case is unreachable under `tabularOk` (`map::at`
    would throw); it renders nothing here. -/
def dumpCellF : Nat → ObjMap → Str → Nat → Str
  | 0, _, _, _ => []
  | f + 1, kvs, k, level =>
    match kvs with
    | [] => []
    | (k1, v1) :: rest =>
      if k1 = k then dumpToonF f v1 (level + 1) else dumpCellF f rest k level
termination_by structural fuel _ _ _ => fuel

/-- The verbose-form elements, dumped inline at the same level. -/
def dumpElemsF : Nat → List Toon → Nat → List Str
  | 0, _, _ => []
  | f + 1, vs, level =>
    match vs with
    | [] => []
    | v :: rest => dumpToonF f v level :: dumpElemsF f rest level
termination_by structural fuel _ _ => fuel

/-- `dump(const Toon::object&, string&, int)`: entries separated by a
    newline plus the entry indentation. -/
def dumpObjF : Nat → ObjMap → Nat → Str
  | 0, _, _ => []
  | f + 1, kvs, level => joinSep ('\n' :: indentOf level) (dumpEntriesF f kvs level)
termination_by structural fuel _ _ => fuel

/-- One object entry: `key: ` then the value, on a following indented
    line for object values, inline at the next level for array values,
    inline at the same level for scalars. -/
def dumpEntriesF : Nat → ObjMap → Nat → List Str
  | 0, _, _ => []
  | f + 1, kvs, level =>
    match kvs with
    | [] => []
    | (k, v) :: rest =>
      ((k ++ (':' :: ' ' :: [])) ++
          (if isObjectB v then '\n' :: (indentOf (level + 1) ++ dumpToonF f v (level + 1))
           else if isArrayB v then dumpToonF f v (level + 1)
           else dumpToonF f v level)) ::
        dumpEntriesF f rest level
termination_by structural fuel _ _ => fuel

end

/-- `Toon::dump` with adequate fuel. -/
def dumpToon (t : Toon) (level : Nat) : Str := dumpToonF (2 * toonSize t + 2) t level

/-- Array dump entry with adequate fuel. -/
def dumpArr (vs : List Toon) (level : Nat) : Str := dumpArrF (2 * toonSizeL vs + 2) vs level

/-- Object dump entry with adequate fuel. -/
def dumpObj (kvs : ObjMap) (level : Nat) : Str := dumpObjF (2 * toonSizeO kvs + 2) kvs level

/- ### Parser: cursor scanners

Each C++ scanning loop advances the cursor by at least one position per
iteration, so running its step function `s.length + 1` times from any
position reproduces the loop exactly; the zero-fuel fallback below is
never reached from a start position inside the buffer. -/

def consumeWSGo (s : Str) : Nat → Nat → Nat
  | 0, i => i
  | f + 1, i =>
    if i < s.length && isWSChar (s.getD i ' ') then consumeWSGo s f (i + 1) else i

/-- `consume_whitespace`: skip spaces, carriage returns and tabs. -/
def consumeWS (s : Str) (i : Nat) : Nat := consumeWSGo s (s.length + 1) i

def skipToNLGo (s : Str) : Nat → Nat → Nat
  | 0, i => i
  | f + 1, i =>
    if i < s.length && !(s.getD i ' ' = '\n') then skipToNLGo s f (i + 1) else i

/-- The comment scan of `consume_garbage`: advance to the next newline. -/
def skipToNL (s : Str) (i : Nat) : Nat := skipToNLGo s (s.length + 1) i

def consumeGarbageGo (s : Str) : Nat → Nat → Nat
  | 0, i => i
  | f + 1, i =>
    let j := consumeWS s i
    if j < s.length && s.getD j ' ' = '#' then consumeGarbageGo s f (skipToNL s j)
    else if j < s.length && s.getD j ' ' = '\n' then consumeGarbageGo s f (j + 1)
    else j

/-- `consume_garbage`: skip whitespace, comments and blank lines. -/
def consumeGarbage (s : Str) (i : Nat) : Nat := consumeGarbageGo s (s.length + 1) i

/-- The backward scan of `get_indent`: the start of the current line. -/
def lineStart (s : Str) : Nat → Nat
  | 0 => 0
  | i + 1 => if s.getD i ' ' = '\n' then i + 1 else lineStart s i

def countIndentGo (s : Str) : Nat → Nat → Nat
  | 0, _ => 0
  | f + 1, k =>
    if k < s.length && (s.getD k ' ' = ' ' || s.getD k ' ' = '\t') then
      (if s.getD k ' ' = '\t' then 8 else 1) + countIndentGo s f (k + 1)
    else 0

/-- `get_indent`: columns of leading blanks on the current line, a tab
    counting as eight. -/
def getIndent (s : Str) (i : Nat) : Nat :=
  countIndentGo s (s.length + 1) (lineStart s i)

def scanStopGo (stop : Char → Bool) (s : Str) : Nat → Nat → Nat
  | 0, i => i
  | f + 1, i =>
    if i < s.length && !(stop (s.getD i ' ')) then scanStopGo stop s f (i + 1) else i

/-- Advance while the current byte is not a stop byte. -/
def scanStop (stop : Char → Bool) (s : Str) (i : Nat) : Nat :=
  scanStopGo stop s (s.length + 1) i

/-- The unquoted-string run: bytes up to a reserved byte. -/
def scanUq (s : Str) (i : Nat) : Nat :=
  scanStop (fun c => specialChars.contains c) s i

/-- The numeric run of `parse_number`. -/
def scanNumRun (s : Str) (i : Nat) : Nat :=
  scanStop (fun c => !(c.isDigit || c = '.' || c = '-' || c = 'e' || c = 'E')) s i

/-- The key scan of `parse_object`: bytes up to a colon. -/
def scanToColon (s : Str) (i : Nat) : Nat := scanStop (fun c => c = ':') s i

def sliceStr (s : Str) (i j : Nat) : Str := (s.drop i).take (j - i)

/-- The trailing trim of `parse_unquoted_string`
    (`find_last_not_of(" \t\r")`; an all-blank string is left as is). -/
def trimTrailingWS (l : Str) : Str :=
  if l.all (fun c => c = ' ' || c = '\t' || c = '\r') then l
  else (l.reverse.dropWhile (fun c => c = ' ' || c = '\t' || c = '\r')).reverse

/- ### Unicode helpers (`helper_toon`) -/

def ucpGo (s : Str) : Nat → Nat → Nat → Nat × Nat × Str
  | 0, val, i => (val, i, [])
  | j + 1, val, i =>
    let c := s.getD i ' '
    let i1 := i + 1
    let val1 := val * 16
    if c.isDigit then ucpGo s j (val1 + (c.toNat - 48)) i1
    else if 'a' ≤ c && c ≤ 'f' then ucpGo s j (val1 + (c.toNat - 97) + 10) i1
    else if 'A' ≤ c && c ≤ 'F' then ucpGo s j (val1 + (c.toNat - 65) + 10) i1
    else (0, i1, "invalid unicode escape".toList)

/-- `helper_toon::parse_unicode_codepoint`: reads four hex digits
    starting exactly at position `i`, returning the value, the updated
    position and an error text (empty on success). -/
def parseUCP (s : Str) (i : Nat) : Nat × Nat × Str :=
  if s.length ≤ i + 4 then (0, i, "unfinished unicode escape".toList)
  else ucpGo s 4 0 i

/-- `helper_toon::encode_utf8`: replacement of out-of-range, surrogate
    and noncharacter code points, then UTF-8 byte emission. -/
def encodeUTF8 (cp0 : Nat) : Str :=
  let cp1 := if 0x10ffff < cp0 then 0xfffd else cp0
  let cp := if (0xd800 ≤ cp1 && cp1 ≤ 0xdfff) || (0xfdd0 ≤ cp1 && cp1 ≤ 0xfdef) ||
      (cp1 &&& 0xfffe) = 0xfffe then 0xfffd else cp1
  if cp ≤ 0x7f then [Char.ofNat cp]
  else if cp ≤ 0x7ff then
    [Char.ofNat (0xc0 ||| ((cp >>> 6) &&& 0x1f)), Char.ofNat (0x80 ||| (cp &&& 0x3f))]
  else if cp ≤ 0xffff then
    [Char.ofNat (0xe0 ||| ((cp >>> 12) &&& 0x0f)), Char.ofNat (0x80 ||| ((cp >>> 6) &&& 0x3f)),
     Char.ofNat (0x80 ||| (cp &&& 0x3f))]
  else
    [Char.ofNat (0xf0 ||| ((cp >>> 18) &&& 0x07)), Char.ofNat (0x80 ||| ((cp >>> 12) &&& 0x3f)),
     Char.ofNat (0x80 ||| ((cp >>> 6) &&& 0x3f)), Char.ofNat (0x80 ||| (cp &&& 0x3f))]

/- ### Parser state -/

/-- The mutable fields of `ToonParser`: cursor, sticky error text and
    sticky failure flag. -/
structure PState where
  i : Nat
  err : Str
  failed : Bool
deriving DecidableEq, Repr

/-- `ToonParser::fail`: record the message only on the first failure,
    set the flag, return the null value. -/
def pfail (msg : Str) (st : PState) : Toon × PState :=
  (Toon.null, { i := st.i, err := if st.failed then st.err else msg, failed := true })

/-- `str.compare(i, n, w) == 0` for the literal prefixes of
    `parse_value`. -/
def matchAt (s : Str) (i : Nat) (w : Str) : Bool := (s.drop i).take w.length == w

/-- `parse_number`: greedy run of digits, `.`, `-`, `e`, `E`, converted
    with `strtod`. -/
def parseNumber (s : Str) (st : PState) : Toon × PState :=
  let j := scanNumRun s st.i
  (Toon.num (strtodValD (sliceStr s st.i j)), { st with i := j })

/-- `parse_unquoted_string`: bytes up to a reserved byte, with the
    trailing blanks trimmed. -/
def parseUnquoted (s : Str) (st : PState) : Toon × PState :=
  let j := scanUq s st.i
  (Toon.str (trimTrailingWS (sliceStr s st.i j)), { st with i := j })

def scanKeyEnd (s : Str) (i : Nat) : Nat := scanStop (fun c => c = ',' || c = '}') s i

/-- The space-only trim of a tabular header key
    (`find_first_not_of(" ")` / `find_last_not_of(" ")`); an all-space
    key is dropped. -/
def trimSpacesKey (raw : Str) : Option Str :=
  if raw.all (fun c => c = ' ') then none
  else some (((raw.dropWhile (fun c => c = ' ')).reverse.dropWhile (fun c => c = ' ')).reverse)

def scanHdrKeysGo (s : Str) : Nat → Nat → List Str → List Str × Nat
  | 0, i, acc => (acc, i)
  | f + 1, i, acc =>
    if i < s.length && !(s.getD i ' ' = '}') then
      let j := consumeWS s i
      let k := scanKeyEnd s j
      let acc1 := match trimSpacesKey (sliceStr s j k) with
        | none => acc
        | some t => acc ++ [t]
      let k1 := if k < s.length && s.getD k ' ' = ',' then k + 1 else k
      scanHdrKeysGo s f k1 acc1
    else (acc, if i < s.length then i + 1 else i)

/-- The tabular header scan of `parse_array`: comma-separated trimmed
    key names up to the closing brace. -/
def scanHdrKeys (s : Str) (i : Nat) : List Str × Nat := scanHdrKeysGo s (s.length + 1) i []

/-- The digit run of the `[N]` header; absent digits give the sentinel
    count `-1`. -/
def scanCount (s : Str) (i : Nat) : Int × Nat :=
  let j := scanStop (fun c => !c.isDigit) s i
  if j = i then (-1, j) else ((digitsVal (sliceStr s i j) : Nat) , j)

/-- Skip to and past the closing bracket, then past an optional colon. -/
def skipPastRBColon (s : Str) (i : Nat) : Nat :=
  let j := scanStop (fun c => c = ']') s i
  let j1 := if j < s.length then j + 1 else j
  if j1 < s.length && s.getD j1 ' ' = ':' then j1 + 1 else j1

/-- Outcome of one tabular row: completed, incomplete (missing column),
    or a hard failure observed right after a recursive value parse. -/
inductive RowRes where
  | ok : RowRes
  | rowFail : RowRes
  | critical : RowRes
deriving DecidableEq

/- The recursive parser.  Every function consumes one unit of fuel per
   loop iteration or nested call; the zero-fuel fallbacks return the
   state unchanged and are unreachable for the generous fuel used by
   `toonParse` on the concrete inputs below. -/
mutual

/-- `parse_value`: dispatch on the next significant byte. -/
def parseValue : Nat → Str → PState → Toon × PState
  | 0, _, st => (Toon.null, st)
  | fuel + 1, s, st =>
    let i := consumeWS s st.i
    if i = s.length then pfail ("unexpected end of input".toList) { st with i := i }
    else
      let ch := s.getD i ' '
      if ch = '"' then qsLoop fuel s (i + 1) [] st
      else if ch = '[' then parseArray fuel (-1) s { st with i := i }
      else if matchAt s i nullLit then (Toon.null, { st with i := i + 4 })
      else if matchAt s i trueLit then (Toon.bool true, { st with i := i + 4 })
      else if matchAt s i falseLit then (Toon.bool false, { st with i := i + 5 })
      else if ch.isDigit || ch = '-' then parseNumber s { st with i := i }
      else parseUnquoted s { st with i := i }

/-- The scanning loop of `parse_quoted_string` (cursor `i`, accumulated
    bytes `out`; `st` carries the sticky error state). -/
def qsLoop : Nat → Str → Nat → Str → PState → Toon × PState
  | 0, _, i, _, st => (Toon.null, { st with i := i })
  | fuel + 1, s, i, out, st =>
    if i < s.length ∧ ¬ s.getD i ' ' = '"' then
      if s.getD i ' ' = '\\' then
        let i1 := i + 1
        if s.getD i1 '\x00' = 'u' then
          match parseUCP s i1 with
          | (cp, i2, e) =>
            if ¬ e = [] then pfail e { st with i := i2 }
            else qsEsc fuel s i2 (out ++ encodeUTF8 cp) st
        else qsEsc fuel s i1 out st
      else qsLoop fuel s (i + 1) (out ++ [s.getD i ' ']) st
    else
      if i = s.length then pfail ("unfinished string".toList) { st with i := i }
      else (Toon.str out, { st with i := i + 1 })

/-- The escape tail of `parse_quoted_string`: reached after a backslash
    (and after the unicode branch, which falls through in the source). -/
def qsEsc : Nat → Str → Nat → Str → PState → Toon × PState
  | 0, _, i, _, st => (Toon.null, { st with i := i })
  | fuel + 1, s, i, out, st =>
    if i = s.length then pfail ("unfinished escape".toList) { st with i := i }
    else
      let esc := s.getD i ' '
      let i1 := i + 1
      if esc = 'n' then qsLoop fuel s i1 (out ++ ['\n']) st
      else if esc = 'r' then qsLoop fuel s i1 (out ++ ['\r']) st
      else if esc = 't' then qsLoop fuel s i1 (out ++ ['\t']) st
      else if esc = '"' ∨ esc = '\\' then qsLoop fuel s i1 (out ++ [esc]) st
      else pfail ("invalid escape".toList) { st with i := i1 }

/-- `parse_array`: header (`[N]` or `[{k1, k2}]`), closing bracket and
    optional colon, then the tabular or the standard body. -/
def parseArray : Nat → Int → Str → PState → Toon × PState
  | 0, _, _, st => (Toon.null, st)
  | fuel + 1, pI, s, st =>
    let i0 := st.i + 1
    if i0 < s.length ∧ s.getD i0 ' ' = '{' then
      let (keys, i1) := scanHdrKeys s (i0 + 1)
      let i2 := skipPastRBColon s i1
      tabLoop fuel pI s keys [] { st with i := i2 }
    else
      let (count, i1) := scanCount s i0
      let i2 := skipPastRBColon s i1
      let (arr, st1) := stdLoop fuel count 0 s [] { st with i := i2 }
      (Toon.arr arr, st1)

/-- The tabular body loop: stop at end of input or when the next row is
    not indented deeper than the parent; a hard failure inside a row
    returns null at once; an incomplete row is discarded and ends the
    array. -/
def tabLoop : Nat → Int → Str → List Str → List Toon → PState → Toon × PState
  | 0, _, _, _, arr, st => (Toon.arr arr, st)
  | fuel + 1, pI, s, keys, arr, st =>
    let i := consumeGarbage s st.i
    if i = s.length then (Toon.arr arr, { st with i := i })
    else
      let ci : Int := (getIndent s i : Nat)
      if ¬ pI = -1 ∧ ci ≤ pI then (Toon.arr arr, { st with i := i })
      else
        match tabRow fuel s keys [] { st with i := i } with
        | (RowRes.critical, _, st1) => (Toon.null, st1)
        | (RowRes.rowFail, _, st1) => (Toon.arr arr, st1)
        | (RowRes.ok, obj, st1) => tabLoop fuel pI s keys (arr ++ [Toon.obj obj]) st1

/-- One tabular row: one value per header key, comma-separated; an end
    of line before all keys are filled marks the row incomplete. -/
def tabRow : Nat → Str → List Str → ObjMap → PState → RowRes × ObjMap × PState
  | 0, _, _, obj, st => (RowRes.ok, obj, st)
  | fuel + 1, s, keys, obj, st =>
    match keys with
    | [] => (RowRes.ok, obj, st)
    | k :: ks =>
      let i := consumeWS s st.i
      if i = s.length ∨ s.getD i ' ' = '\n' then (RowRes.rowFail, obj, { st with i := i })
      else
        let (v, st1) := parseValue fuel s { st with i := i }
        if st1.failed then (RowRes.critical, obj, st1)
        else
          let obj1 := objInsert k v obj
          let i2 := consumeWS s st1.i
          let i3 := if ¬ ks = [] ∧ i2 < s.length ∧ s.getD i2 ' ' = ',' then i2 + 1 else i2
          tabRow fuel s ks obj1 { st1 with i := i3 }

/-- The standard body loop `[N]: v1, v2, ...` (`count = -1` when the
    header had no digits: stop after the first element without a
    trailing comma). -/
def stdLoop : Nat → Int → Nat → Str → List Toon → PState → List Toon × PState
  | 0, _, _, _, arr, st => (arr, st)
  | fuel + 1, count, k, s, arr, st =>
    if ¬ (count < 0 ∨ (k : Int) < count) then (arr, st)
    else
      let i := consumeGarbage s st.i
      if i = s.length then (arr, { st with i := i })
      else
        let (v, st1) := parseValue fuel s { st with i := i }
        let arr1 := arr ++ [v]
        let i2 := consumeWS s st1.i
        if i2 < s.length ∧ s.getD i2 ' ' = ',' then
          stdLoop fuel count (k + 1) s arr1 { st1 with i := i2 + 1 }
        else if count < 0 then (arr1, { st1 with i := i2 })
        else stdLoop fuel count (k + 1) s arr1 { st1 with i := i2 }

/-- The loop of `parse_object` (accumulated entries in `obj`): stop at
    end of input, or (once an entry exists) when the line is not
    indented deeper than the parent; the key runs to the next colon; a
    newline after the colon starts a block-style value, otherwise the
    value is inline.  The nested indentation recomputed by the source at
    this point is unused there; the key line indentation is what is
    passed down. -/
def objLoop : Nat → Int → Str → ObjMap → PState → Toon × PState
  | 0, _, _, obj, st => (Toon.obj obj, st)
  | fuel + 1, pI, s, obj, st =>
    if st.i < s.length then
      let i := consumeGarbage s st.i
      let ci : Int := (getIndent s i : Nat)
      if ci ≤ pI ∧ obj.isEmpty = false then (Toon.obj obj, { st with i := i })
      else
        let j := scanToColon s i
        let key := sliceStr s i j
        if j = s.length then (Toon.obj obj, { st with i := j })
        else
          let j2 := consumeWS s (j + 1)
          if j2 < s.length ∧ s.getD j2 ' ' = '\n' then
            let j3 := consumeGarbage s (j2 + 1)
            if s.getD j3 '\x00' = '[' then
              let (v, st1) := parseArray fuel ci s { st with i := j3 }
              objLoop fuel pI s (objInsert key v obj) st1
            else
              let (v, st1) := objLoop fuel ci s [] { st with i := j3 }
              objLoop fuel pI s (objInsert key v obj) st1
          else
            if s.getD j2 '\x00' = '[' then
              let (v, st1) := parseArray fuel ci s { st with i := j2 }
              objLoop fuel pI s (objInsert key v obj) st1
            else
              let (v, st1) := parseValue fuel s { st with i := j2 }
              objLoop fuel pI s (objInsert key v obj) st1
    else (Toon.obj obj, st)

end

/-- `parse_quoted_string` entry: skip the opening quote, scan. -/
def parseQuotedString (fuel : Nat) (s : Str) (st : PState) : Toon × PState :=
  qsLoop fuel s (st.i + 1) [] st

/-- `parse_object` entry: loop with an empty accumulator. -/
def parseObject (fuel : Nat) (pI : Int) (s : Str) (st : PState) : Toon × PState :=
  objLoop fuel pI s [] st

/-- `Toon::parse`: skip leading noise; empty input gives null; a `[`
    starts an array (through `parse_value`); else an object when the
    input contains a colon anywhere (the source searches the whole
    buffer, skipped noise included), else a single scalar. -/
def toonParseWith (fuel : Nat) (s : Str) : Toon × PState :=
  let i := consumeGarbage s 0
  let st : PState := ⟨i, [], false⟩
  if i = s.length then (Toon.null, st)
  else if s.getD i ' ' = '[' then parseValue fuel s st
  else if s.contains ':' then parseObject fuel (-1) s st
  else parseValue fuel s st

/-- `Toon::parse` with fuel ample for the inputs considered here. -/
def toonParse (s : Str) : Toon × PState := toonParseWith (2 * s.length + 8) s

/- ### Specification-side definitions

The definitions in this section follow the wording of the claims under
scrutiny; each is compared against the corresponding definition
translated from the source above. -/

/-- The indexing behavior the claim describes: the element at `i` when
    `v` is an array with `i` in range, the null value in every other
    case. -/
def specIndex (v : Toon) (i : Nat) : Toon :=
  match v with
  | Toon.arr xs => if h : i < xs.length then xs.get ⟨i, h⟩ else Toon.null
  | _ => Toon.null

/-- The key lookup the claim describes: the mapped value when `v` is an
    object containing the key, the null value otherwise. -/
def specKeyLookup (v : Toon) (k : Str) : Toon :=
  match v with
  | Toon.obj kvs =>
    if h : (lookupKey kvs k).isSome then (lookupKey kvs k).get h else Toon.null
  | _ => Toon.null

/-- The quoting predicate exactly as the claim words it: empty, a
    keyword, parsing fully as a numeric literal under the decimal
    converter, or containing a reserved byte. -/
def specNeedsQuoting (s : Str) : Bool :=
  s.isEmpty || s = nullLit || s = trueLit || s = falseLit || strtodFull s ||
    s.any (fun c => specialChars.contains c)

/-- The amended quoting predicate: the numeric test is guarded by the
    first byte being a digit or a minus, as the source guards its
    `strtod` call. -/
def amendedNeedsQuoting (s : Str) : Bool :=
  s.isEmpty || s = nullLit || s = trueLit || s = falseLit ||
    ((Char.isDigit (s.headD ' ') || s.headD ' ' = '-') && strtodFull s) ||
    s.any (fun c => specialChars.contains c)

/- ### Claims C1, C2, C5, C9, C10 -/

/-- C1: the round-trip property fails on the code.  The single-space
    string is encoded verbatim (it needs no quoting), decoding the
    encoded text succeeds with an empty error, yet the decoded value is
    null, not equal to the original under `operator==`. -/
theorem toon_c1_roundtrip_fails :
    needs_quoting [' '] = false ∧
    dumpToon (Toon.str [' ']) 0 = [' '] ∧
    toonParse [' '] = (Toon.null, ⟨1, [], false⟩) ∧
    toonEq ((toonParse (dumpToon (Toon.str [' ']) 0)).1) (Toon.str [' ']) = false :=
  ⟨rfl, rfl, rfl, rfl⟩

/-- C2: every `\uXXXX` escape is a hard parse failure on the code.  The
    call site never steps past the `u`, so the helper reads `u` as its
    first hex digit and reports an invalid escape; the same helper
    applied at the position of the four digits returns the code point
    65, whose UTF-8 encoding is the byte `A` the claim expects. -/
theorem toon_c2_unicode_escape_fails :
    toonParse ("\"\\u0041\"".toList) =
      (Toon.null, ⟨3, "invalid unicode escape".toList, true⟩) ∧
    parseUCP ("\"\\u0041\"".toList) 3 = (65, 7, []) ∧
    encodeUTF8 65 = ['A'] :=
  ⟨rfl, rfl, rfl⟩

/-- C5: the decoder rejects escapes the encoder emits.  The two-byte
    string `0x0A 0x08` is quoted and escaped as `"\n\b"`, but decoding
    that text fails with `invalid escape`: the decoder accepts only the
    escapes `n`, `r`, `t`, quote and backslash, never `b`, `f` or
    `u00XX`. -/
theorem toon_c5_escape_roundtrip_fails :
    needs_quoting ['\n', '\x08'] = true ∧
    dumpToon (Toon.str ['\n', '\x08']) 0 = ['"', '\\', 'n', '\\', 'b', '"'] ∧
    toonParse ['"', '\\', 'n', '\\', 'b', '"'] =
      (Toon.null, ⟨5, "invalid escape".toList, true⟩) ∧
    toonEq ((toonParse (dumpToon (Toon.str ['\n', '\x08']) 0)).1)
      (Toon.str ['\n', '\x08']) = false :=
  ⟨rfl, rfl, rfl, rfl⟩

/-- C9: encoding the empty array produces exactly `[0]:` and encoding
    the empty object produces the empty text. -/
theorem toon_c9_empty_containers :
    dumpToon (Toon.arr []) 0 = ("[0]:".toList) ∧ dumpToon (Toon.obj []) 0 = [] :=
  ⟨rfl, rfl⟩

/-- C10: indexing is total: array indexing returns the element exactly
    for in-range indices on arrays and null otherwise; key lookup
    returns the mapped value exactly for present keys on objects and
    null otherwise. -/
theorem toon_c10_indexing_total (v : Toon) (i : Nat) (k : Str) :
    toonIndex v i = specIndex v i ∧ toonKeyLookup v k = specKeyLookup v k := by
  constructor
  · cases v <;> simp only [toonIndex, specIndex]
    case arr xs =>
      by_cases h : i < xs.length
      · simp only [Nat.not_le.mpr h, if_false, dif_pos h]
        rw [List.getD_eq_getElem xs Toon.null h]
        simp [List.get_eq_getElem]
      · simp [Nat.le_of_not_lt h, h]
  · cases v <;> simp only [toonKeyLookup, specKeyLookup]
    case obj kvs =>
      cases hl : lookupKey kvs k <;> simp [hl]

/- ### Claim C4: the quoting decision -/

theorem ite_true_or {p : Prop} [Decidable p] (x : Bool) :
    (if p then true else x) = (decide p || x) := by
  by_cases h : p <;> simp [h]

/-- C4 counterexample: `.5` parses fully as a numeric literal (the
    decimal converter consumes it entirely), so the claim requires it
    to be quoted, yet the source skips the numeric test because the
    first byte is neither a digit nor a minus and emits it verbatim. -/
theorem toon_c4_counterexample :
    strtodFull (".5".toList) = true ∧
    specNeedsQuoting (".5".toList) = true ∧
    needs_quoting (".5".toList) = false ∧
    dumpStr (".5".toList) = (".5".toList) :=
  ⟨rfl, rfl, rfl, rfl⟩

/-- C4 amended: a string is quoted exactly when it is empty, a keyword,
    a fully numeric literal that moreover starts with a digit or a
    minus, or contains a reserved byte; an unquoted string is emitted
    verbatim. -/
theorem toon_c4_amended (s : Str) :
    needs_quoting s = amendedNeedsQuoting s ∧
    (needs_quoting s = false → dumpStr s = s) := by
  constructor
  · simp only [needs_quoting, amendedNeedsQuoting, ite_true_or]
    by_cases h1 : s.isEmpty <;>
      by_cases h2 : s = nullLit <;>
        by_cases h3 : s = trueLit <;>
          by_cases h4 : s = falseLit <;>
            simp [h1, h2, h3, h4]
  · intro h
    simp [dumpStr, h]

/-- C4 witness: the amended equivalence and the verbatim clause applied
    at the concrete unquoted string `ab`. -/
theorem toon_c4_amended_witness :
    needs_quoting ("ab".toList) = amendedNeedsQuoting ("ab".toList) ∧
      dumpStr ("ab".toList) = ("ab".toList) :=
  ⟨(toon_c4_amended ("ab".toList)).1, (toon_c4_amended ("ab".toList)).2 rfl⟩

/- ### Claim C3: tabular eligibility -/

/-- Key-set agreement with a reference element as the claim words it:
    same size, same keys by set membership. -/
def sameKeySetAsHead (h v : Toon) : Prop :=
  (keysOf v).length = (keysOf h).length ∧
    (∀ k ∈ keysOf v, k ∈ keysOf h) ∧ (∀ k ∈ keysOf h, k ∈ keysOf v)

/-- Tabular eligibility exactly as the claim states it: the array is
    non-empty, every element is an object, and every element has the
    identical key set as the first element. -/
def claimEligible (vs : List Toon) : Prop :=
  vs.isEmpty = false ∧ (∀ v ∈ vs, isObjectB v = true) ∧
    ∀ v ∈ vs, sameKeySetAsHead (vs.headD Toon.null) v

/-- The amended eligibility: additionally the first element has at
    least one key (the final `!keys.empty()` test of the source). -/
def amendedEligible (vs : List Toon) : Prop :=
  claimEligible vs ∧ (keysOf (vs.headD Toon.null)).isEmpty = false

/-- Uniqueness of the stored keys of an object element; `std::map`
    guarantees this for every value the C++ library can build. -/
def objKeysNodup (v : Toon) : Prop := ((objItems v).map Prod.fst).Nodup

/-- C3 counterexample: the one-element array holding an empty object is
    tabular-eligible as the claim states the condition, yet the source
    rejects it (its first element has no keys) and emits the verbose
    form `[1]: `. -/
theorem toon_c3_counterexample :
    claimEligible [Toon.obj []] ∧ tabularOk [Toon.obj []] = false ∧
      dumpArr [Toon.obj []] 0 = ("[1]: ".toList) := by
  refine ⟨⟨rfl, ?_, ?_⟩, rfl, rfl⟩
  · decide
  · intro v hv
    simp only [List.mem_singleton] at hv
    subst hv
    exact ⟨rfl, by simp [keysOf, objItems], by simp [keysOf, objItems]⟩

theorem lookupKey_isSome_iff (kvs : ObjMap) (k : Str) :
    (lookupKey kvs k).isSome = true ↔ k ∈ kvs.map Prod.fst := by
  induction kvs with
  | nil => simp [lookupKey]
  | cons kv rest ih =>
    obtain ⟨k1, v1⟩ := kv
    by_cases h : k1 = k
    · subst h
      simp [lookupKey]
    · simp [lookupKey, h, ih, Ne.symm h]

theorem mem_of_subset_nodup_length {a b : List Str} (hna : a.Nodup) (hnb : b.Nodup)
    (hlen : b.length = a.length) (hsub : ∀ k ∈ a, k ∈ b) : ∀ k ∈ b, k ∈ a := by
  have hfin : a.toFinset ⊆ b.toFinset := by
    intro x hx
    rw [List.mem_toFinset] at hx ⊢
    exact hsub x hx
  have heq : a.toFinset = b.toFinset :=
    Finset.eq_of_subset_of_card_le hfin
      (by rw [List.toFinset_card_of_nodup hna, List.toFinset_card_of_nodup hnb]; omega)
  intro k hk
  rw [← List.mem_toFinset, heq, List.mem_toFinset]
  exact hk

/-- C3 amended: under the `std::map` key-uniqueness invariant, the
    source chooses the tabular form exactly for the non-empty arrays of
    objects sharing the identical key set of the first element when
    that key set is moreover non-empty; every other array (the empty
    array, and arrays of empty objects, included) takes the verbose
    form. -/
theorem toon_c3_amended (vs : List Toon) (hnd : ∀ v ∈ vs, objKeysNodup v) :
    tabularOk vs = true ↔ amendedEligible vs := by
  cases vs with
  | nil => simp [tabularOk, amendedEligible, claimEligible]
  | cons v0 rest =>
    have hv0mem : v0 ∈ v0 :: rest := List.mem_cons_self v0 rest
    constructor
    · intro h
      simp only [tabularOk] at h
      by_cases h0 : isObjectB v0 = true
      · rw [if_pos h0, Bool.and_eq_true, List.all_eq_true] at h
        obtain ⟨hall, hkeys⟩ := h
        have hsame : ∀ v ∈ rest, sameKeySetAsHead v0 v := by
          intro v hv
          have hp := hall v hv
          rw [Bool.and_eq_true, Bool.and_eq_true] at hp
          obtain ⟨⟨hobj, hlenb⟩, hsubb⟩ := hp
          have hlen : (objItems v).length = (keysOf v0).length := by
            simpa using hlenb
          have hsub : ∀ k ∈ keysOf v0, k ∈ keysOf v := by
            intro k hk
            have := List.all_eq_true.mp hsubb k hk
            rw [lookupKey_isSome_iff] at this
            exact this
          have hlen2 : (keysOf v).length = (keysOf v0).length := by
            simpa [keysOf] using hlen
          refine ⟨hlen2, ?_, hsub⟩
          exact mem_of_subset_nodup_length (hnd v0 hv0mem) (hnd v (List.mem_cons_of_mem v0 hv))
            hlen2 hsub
        refine ⟨⟨rfl, ?_, ?_⟩, ?_⟩
        · intro v hv
          rcases List.mem_cons.mp hv with hv | hv
          · exact hv ▸ h0
          · have hp := hall v hv
            rw [Bool.and_eq_true, Bool.and_eq_true] at hp
            exact hp.1.1
        · intro v hv
          simp only [List.headD_cons]
          rcases List.mem_cons.mp hv with hv | hv
          · subst hv
            exact ⟨rfl, fun k hk => hk, fun k hk => hk⟩
          · exact hsame v hv
        · simpa only [List.headD_cons, Bool.not_eq_true', Bool.not_eq_eq_eq_not] using hkeys
      · rw [if_neg h0] at h
        exact absurd h (by simp)
    · intro h
      obtain ⟨⟨_, hobjs, hsame⟩, hkeysne⟩ := h
      simp only [List.headD_cons] at hsame hkeysne
      have h0 : isObjectB v0 = true := hobjs v0 hv0mem
      simp only [tabularOk, if_pos h0, Bool.and_eq_true, List.all_eq_true]
      refine ⟨?_, ?_⟩
      · intro v hv
        have hs := hsame v (List.mem_cons_of_mem v0 hv)
        obtain ⟨hlen2, _, hsub⟩ := hs
        refine ⟨⟨hobjs v (List.mem_cons_of_mem v0 hv), ?_⟩, ?_⟩
        · simp only [decide_eq_true_eq]
          simpa [keysOf] using hlen2
        · intro k hk
          rw [lookupKey_isSome_iff]
          exact hsub k hk
      · simpa only [Bool.not_eq_true', Bool.not_eq_eq_eq_not] using hkeysne

/-- C3 witness: the amended equivalence applied at a concrete
    two-element array of objects sharing the non-empty key set `a`. -/
theorem toon_c3_amended_witness :
    tabularOk [Toon.obj [(['a'], Toon.null)], Toon.obj [(['a'], Toon.bool true)]] = true :=
  (toon_c3_amended [Toon.obj [(['a'], Toon.null)], Toon.obj [(['a'], Toon.bool true)]]
      (by intro v hv; fin_cases hv <;> (simp only [objKeysNodup]; decide))).mpr
    (by
      refine ⟨⟨rfl, ?_, ?_⟩, rfl⟩
      · intro v hv
        fin_cases hv <;> rfl
      · intro v hv
        fin_cases hv <;> exact ⟨rfl, by decide, by decide⟩)

/- ### Claim C6: the top-level dispatch -/

/-- The top-level dispatch exactly as the claim words it: after the
    leading noise, the object-versus-scalar decision looks for a colon
    in the REMAINING input only. -/
def claimDispatch (fuel : Nat) (s : Str) : Toon × PState :=
  let i := consumeGarbage s 0
  let st : PState := ⟨i, [], false⟩
  if i = s.length then (Toon.null, st)
  else if s.getD i ' ' = '[' then parseValue fuel s st
  else if (s.drop i).contains ':' then parseObject fuel (-1) s st
  else parseValue fuel s st

/-- C6 counterexample: on `#:\nx` the only colon sits inside the
    skipped comment.  The remaining input `x` has no colon, so the
    dispatch the claim describes parses a scalar and yields the string
    `x`; the source searches the whole buffer, finds the colon of the
    comment, parses an object and yields the empty object. -/
theorem toon_c6_counterexample :
    toonParseWith 16 ("#:\nx".toList) ≠ claimDispatch 16 ("#:\nx".toList) ∧
    toonParseWith 16 ("#:\nx".toList) = (Toon.obj [], ⟨4, [], false⟩) ∧
    claimDispatch 16 ("#:\nx".toList) = (Toon.str ['x'], ⟨4, [], false⟩) ∧
    consumeGarbage ("#:\nx".toList) 0 = 3 ∧
    (((("#:\nx".toList)).drop 3).contains ':') = false := by
  refine ⟨?_, rfl, rfl, rfl, rfl⟩
  intro h
  exact absurd (congrArg (fun p => toonEq p.1 (Toon.str ['x'])) h) (by decide)

/-- C6 amended: the top-level dispatch of the source: null on empty
    input; an array parse when the first significant byte is `[`; an
    object parse with threshold `-1` exactly when the WHOLE input
    (skipped leading noise included) contains a colon; a scalar parse
    otherwise. -/
theorem toon_c6_amended (fuel : Nat) (s : Str) :
    (consumeGarbage s 0 = s.length →
      toonParseWith fuel s = (Toon.null, ⟨s.length, [], false⟩)) ∧
    (∀ i, consumeGarbage s 0 = i → ¬ i = s.length → s.getD i ' ' = '[' →
      toonParseWith fuel s = parseValue fuel s ⟨i, [], false⟩) ∧
    (∀ i, consumeGarbage s 0 = i → ¬ i = s.length → ¬ s.getD i ' ' = '[' →
      s.contains ':' = true →
      toonParseWith fuel s = parseObject fuel (-1) s ⟨i, [], false⟩) ∧
    (∀ i, consumeGarbage s 0 = i → ¬ i = s.length → ¬ s.getD i ' ' = '[' →
      s.contains ':' = false →
      toonParseWith fuel s = parseValue fuel s ⟨i, [], false⟩) := by
  refine ⟨?_, ?_, ?_, ?_⟩
  · intro h
    unfold toonParseWith
    rw [h, if_pos rfl]
  · intro i hi hne hbr
    unfold toonParseWith
    rw [hi, if_neg hne, if_pos hbr]
  · intro i hi hne hbr hcol
    unfold toonParseWith
    rw [hi, if_neg hne, if_neg hbr, if_pos hcol]
  · intro i hi hne hbr hcol
    unfold toonParseWith
    rw [hi, if_neg hne, if_neg hbr, if_neg (by rw [hcol]; exact Bool.false_ne_true)]

/-- C6 witness: the scalar branch of the amended dispatch at the
    concrete input `x`. -/
theorem toon_c6_amended_witness :
    toonParseWith 9 ("x".toList) = parseValue 9 ("x".toList) ⟨0, [], false⟩ :=
  (toon_c6_amended 9 ("x".toList)).2.2.2 0 rfl (by decide) (by decide) (by decide)

/- ### Claim C8: the first-error-sticky message -/

/-- A sequence of failures recorded through `ToonParser::fail`, the
    only writer of the error text in the parser. -/
def failSeq (msgs : List Str) (st : PState) : PState :=
  msgs.foldl (fun t m => (pfail m t).2) st

theorem failSeq_failed_fix (msgs : List Str) (t : PState) (ht : t.failed = true) :
    (failSeq msgs t).err = t.err ∧ (failSeq msgs t).failed = true := by
  induction msgs generalizing t with
  | nil => exact ⟨rfl, ht⟩
  | cons m rest ih =>
    have hstep : (pfail m t).2 = ⟨t.i, t.err, true⟩ := by
      simp [pfail, ht]
    have : failSeq (m :: rest) t = failSeq rest ⟨t.i, t.err, true⟩ := by
      simp [failSeq, List.foldl_cons, hstep]
    rw [this]
    exact ih ⟨t.i, t.err, true⟩ rfl

/-- C8: within one decode invocation (the failed flag starts false),
    the stored error text after any non-empty sequence of recorded
    failures is the message of the first failure, and the flag stays
    set; later failures never overwrite the first message. -/
theorem toon_c8_first_error_sticky (first : Str) (later : List Str) (st : PState)
    (h : st.failed = false) :
    (failSeq (first :: later) st).err = first ∧
      (failSeq (first :: later) st).failed = true := by
  have hstep : (pfail first st).2 = ⟨st.i, first, true⟩ := by
    simp [pfail, h]
  have hrw : failSeq (first :: later) st = failSeq later ⟨st.i, first, true⟩ := by
    simp [failSeq, List.foldl_cons, hstep]
  rw [hrw]
  exact failSeq_failed_fix later ⟨st.i, first, true⟩ rfl

/-- C8 witness: two consecutive failures at a concrete state keep the
    first message. -/
theorem toon_c8_witness :
    (failSeq [("boom".toList), ("later".toList)] ⟨0, [], false⟩).err = ("boom".toList) ∧
      (failSeq [("boom".toList), ("later".toList)] ⟨0, [], false⟩).failed = true :=
  toon_c8_first_error_sticky ("boom".toList) [("later".toList)] ⟨0, [], false⟩ rfl

/- ### Claim C7: failure propagation -/

/-- Failure-state preservation: once the sticky flag is set, it stays
    set and the error text is unchanged. -/
def Pres (st st1 : PState) : Prop :=
  st.failed = true → st1.failed = true ∧ st1.err = st.err

theorem pres_refl (st : PState) : Pres st st := fun h => ⟨h, rfl⟩

theorem pres_mk (st : PState) (j : Nat) : Pres st ⟨j, st.err, st.failed⟩ :=
  fun h => ⟨h, rfl⟩

theorem pres_trans {a b c : PState} (h1 : Pres a b) (h2 : Pres b c) : Pres a c :=
  fun h =>
    have x := h1 h
    have y := h2 x.1
    ⟨y.1, y.2.trans x.2⟩

theorem pres_pfail {a b : PState} (m : Str) (h1 : Pres a b) : Pres a (pfail m b).2 := by
  intro h
  obtain ⟨hf, he⟩ := h1 h
  simp [pfail, hf, he]

theorem stickyAll (fuel : Nat) :
    (∀ s st, Pres st (parseValue fuel s st).2) ∧
    (∀ s i out st, Pres st (qsLoop fuel s i out st).2) ∧
    (∀ s i out st, Pres st (qsEsc fuel s i out st).2) ∧
    (∀ pI s st, Pres st (parseArray fuel pI s st).2) ∧
    (∀ pI s keys arr st, Pres st (tabLoop fuel pI s keys arr st).2) ∧
    (∀ s keys obj st, Pres st (tabRow fuel s keys obj st).2.2) ∧
    (∀ count k s arr st, Pres st (stdLoop fuel count k s arr st).2) ∧
    (∀ pI s obj st, Pres st (objLoop fuel pI s obj st).2) := by
  induction fuel with
  | zero =>
    refine ⟨?_, ?_, ?_, ?_, ?_, ?_, ?_, ?_⟩ <;> intros <;>
      simp only [parseValue, qsLoop, qsEsc, parseArray, tabLoop, tabRow, stdLoop, objLoop] <;>
      exact pres_mk _ _
  | succ n ih =>
    obtain ⟨ihPV, ihQL, ihQE, ihPA, ihTL, ihTR, ihSL, ihOL⟩ := ih
    refine ⟨?_, ?_, ?_, ?_, ?_, ?_, ?_, ?_⟩
    · -- parseValue
      intro s st
      simp only [parseValue, parseNumber, parseUnquoted]
      split
      · exact pres_pfail _ (pres_mk _ _)
      split
      · exact ihQL _ _ _ _
      split
      · exact pres_trans (pres_mk _ _) (ihPA _ _ _)
      split
      · exact pres_mk _ _
      split
      · exact pres_mk _ _
      split
      · exact pres_mk _ _
      split
      · exact pres_mk _ _
      · exact pres_mk _ _
    · -- qsLoop
      intro s i out st
      simp only [qsLoop]
      split
      · -- inside the scanning loop
        split
        · -- backslash
          split
          · -- unicode branch
            split
            · exact pres_pfail _ (pres_mk _ _)
            · exact ihQE _ _ _ _
          · exact ihQE _ _ _ _
        · exact ihQL _ _ _ _
      · split
        · exact pres_pfail _ (pres_mk _ _)
        · exact pres_mk _ _
    · -- qsEsc
      intro s i out st
      simp only [qsEsc]
      split
      · exact pres_pfail _ (pres_mk _ _)
      split
      · exact ihQL _ _ _ _
      split
      · exact ihQL _ _ _ _
      split
      · exact ihQL _ _ _ _
      split
      · exact ihQL _ _ _ _
      · exact pres_pfail _ (pres_mk _ _)
    · -- parseArray
      intro pI s st
      simp only [parseArray]
      split
      · exact pres_trans (pres_mk _ _) (ihTL _ _ _ _ _)
      · exact pres_trans (pres_mk _ _) (ihSL _ _ _ _ _)
    · -- tabLoop
      intro pI s keys arr st
      simp only [tabLoop]
      split
      · exact pres_mk _ _
      split
      · exact pres_mk _ _
      · split
        · rename_i x st1 heq
          have h1 := ihTR s keys []
            { i := consumeGarbage s st.i, err := st.err, failed := st.failed }
          rw [heq] at h1
          exact pres_trans (pres_mk _ _) h1
        · rename_i x st1 heq
          have h1 := ihTR s keys []
            { i := consumeGarbage s st.i, err := st.err, failed := st.failed }
          rw [heq] at h1
          exact pres_trans (pres_mk _ _) h1
        · rename_i obj1 st1 heq
          have h1 := ihTR s keys []
            { i := consumeGarbage s st.i, err := st.err, failed := st.failed }
          rw [heq] at h1
          exact pres_trans (pres_trans (pres_mk _ _) h1) (ihTL _ _ _ _ _)
    · -- tabRow
      intro s keys obj st
      simp only [tabRow]
      split
      · exact pres_refl _
      · -- cons key
        split
        · exact pres_mk _ _
        · -- parse one value
          split
          · -- critical: the recursive parse left the flag set
            exact pres_trans (pres_mk _ _) (ihPV s _)
          · exact pres_trans
              (pres_trans (pres_trans (pres_mk _ _) (ihPV s _)) (pres_mk _ _))
              (ihTR _ _ _ _)
    · -- stdLoop
      intro count k s arr st
      simp only [stdLoop]
      split
      · exact pres_refl _
      · split
        · exact pres_mk _ _
        · split
          · exact pres_trans
              (pres_trans (pres_trans (pres_mk _ _) (ihPV s _)) (pres_mk _ _))
              (ihSL _ _ _ _ _)
          split
          · exact pres_trans (pres_trans (pres_mk _ _) (ihPV s _)) (pres_mk _ _)
          · exact pres_trans
              (pres_trans (pres_trans (pres_mk _ _) (ihPV s _)) (pres_mk _ _))
              (ihSL _ _ _ _ _)
    · -- objLoop
      intro pI s obj st
      simp only [objLoop]
      split
      · split
        · exact pres_mk _ _
        · split
          · exact pres_mk _ _
          · split
            · -- block-style value
              split
              · exact pres_trans (pres_trans (pres_mk _ _) (ihPA _ s _)) (ihOL _ _ _ _)
              · exact pres_trans (pres_trans (pres_mk _ _) (ihOL _ s [] _)) (ihOL _ _ _ _)
            · -- inline value
              split
              · exact pres_trans (pres_trans (pres_mk _ _) (ihPA _ s _)) (ihOL _ _ _ _)
              · exact pres_trans (pres_trans (pres_mk _ _) (ihPV s _)) (ihOL _ _ _ _)
      · exact pres_refl _

/-- C7 counterexample: on the input `a: "x` the quoted string fails
    hard (`unfinished string`), yet `parse` returns the partial object
    `{a: null}`: `parse_object` never checks the failed flag after its
    recursive calls, and the final value is not the null value. -/
theorem toon_c7_counterexample :
    toonParse ("a: \"x".toList) =
      (Toon.obj [(['a'], Toon.null)], ⟨5, "unfinished string".toList, true⟩) ∧
    toonEq (toonParse ("a: \"x".toList)).1 Toon.null = false :=
  ⟨rfl, rfl⟩

/-- C7 amended: once the failed flag is set it stays set through every
    further value, array, or object parse, and the first error text is
    never overwritten, so callers can rely on the flag and message; the
    returned value, however, may be a partially built non-null value. -/
theorem toon_c7_amended (fuel : Nat) :
    (∀ s st, st.failed = true →
      (parseValue fuel s st).2.failed = true ∧ (parseValue fuel s st).2.err = st.err) ∧
    (∀ pI s st, st.failed = true →
      (parseArray fuel pI s st).2.failed = true ∧ (parseArray fuel pI s st).2.err = st.err) ∧
    (∀ pI s st, st.failed = true →
      (parseObject fuel pI s st).2.failed = true ∧ (parseObject fuel pI s st).2.err = st.err) := by
  obtain ⟨hPV, _, _, hPA, _, _, _, hOL⟩ := stickyAll fuel
  exact ⟨fun s st h => hPV s st h, fun pI s st h => hPA pI s st h,
    fun pI s st h => hOL pI s [] st h⟩

/-- C7 witness: a failed state entering a value parse at a concrete
    input keeps the flag and the message. -/
theorem toon_c7_amended_witness :
    (parseValue 3 ("1".toList) ⟨0, ("boom".toList), true⟩).2.failed = true ∧
      (parseValue 3 ("1".toList) ⟨0, ("boom".toList), true⟩).2.err = ("boom".toList) :=
  (toon_c7_amended 3).1 ("1".toList) ⟨0, ("boom".toList), true⟩ rfl
